import Mathlib

/-!
Shallow embedding of the Ergo architecture dashboard's shared-document
synchronization core (the patch-save revision of `App.tsx`) and of the
`delete-node` edge function.

Modelling conventions:
* JS `Date` values and ISO-8601 timestamp strings are both modelled by the
  epoch-millisecond value as an `Int`; `Date.toISOString` / `new Date(s)`
  round-trip losslessly at millisecond precision, so the date conversions in
  `parseDates` are the identity on that value.
* A JSON value that may be `null`/absent is modelled as an `Option`; JS
  truthiness checks on objects and arrays are always true (even for `[]`),
  and false exactly for `null`/`undefined`, matching the `Option` split.
* The union string types (`ComponentStatus`, comment status) are modelled as
  `String`, which is their runtime representation.
-/

/-- Structure `Tag` from types/architecture.ts. -/
structure Tag where
  id : String
  label : String
  color : String
deriving DecidableEq

/-- Structure `Comment` from types/architecture.ts (timestamp as epoch ms). -/
structure Comment where
  id : String
  text : String
  author : String
  timestamp : Int
  mentions : List String
  status : String
deriving DecidableEq

/-- The 2-D canvas position of a node. -/
structure Position where
  x : Int
  y : Int
deriving DecidableEq

/-- Structure `ComponentNode` from types/architecture.ts (`lastUpdated` as epoch ms). -/
structure ComponentNode where
  id : String
  name : String
  description : String
  status : String
  inputs : List String
  outputs : List String
  owner : Option String
  lastUpdated : Int
  tags : List String
  comments : List Comment
  position : Position
  layer : Int
  workDone : Option String
  inDevelopment : Option String
  blocker : Option String
deriving DecidableEq

/-- Structure `MilestoneView` from types/architecture.ts (`createdAt` as epoch ms). -/
structure MilestoneView where
  id : String
  name : String
  description : String
  filterTags : List String
  createdAt : Int
deriving DecidableEq

/-- Structure `ArchitectureData` from types/architecture.ts. -/
structure ArchitectureData where
  components : List ComponentNode
  tags : List Tag
  milestones : List MilestoneView
deriving DecidableEq

/-- The `Connection` interface of App.tsx. The JSON keys are `from` and `to`;
`from` is a Lean keyword, so the fields are named `fromId` / `toId`. -/
structure Connection where
  fromId : String
  toId : String
deriving DecidableEq

/-- Modelled from the spec: the "built-in default Document" (the default/initial
graph) exported by `data/initialArchitecture.ts`, a source file whose body is
not part of this snapshot. Its concrete node contents are irrelevant to every
claim; only its identity as the seed/fallback document matters. -/
def initialArchitectureData : ArchitectureData :=
  { components := [], tags := [], milestones := [] }

/-- The hard-coded fallback connection list of `loadLocalConnections`. -/
def defaultConnections : List Connection :=
  [ ⟨"company-profile", "data-loader"⟩,
    ⟨"predefined-scenarios", "data-loader"⟩,
    ⟨"data-loader", "scenario-bundles"⟩,
    ⟨"scenario-bundles", "flos-analysis"⟩,
    ⟨"flos-analysis", "finance-agent"⟩,
    ⟨"flos-analysis", "legal-agent"⟩,
    ⟨"flos-analysis", "operations-agent"⟩,
    ⟨"flos-analysis", "strategy-agent"⟩,
    ⟨"finance-agent", "all-items-combined"⟩,
    ⟨"legal-agent", "all-items-combined"⟩,
    ⟨"operations-agent", "all-items-combined"⟩,
    ⟨"strategy-agent", "all-items-combined"⟩,
    ⟨"all-items-combined", "policy-checker"⟩,
    ⟨"policy-checker", "json-output"⟩ ]

/-- Function `loadLocalConnections`: the saved localStorage copy if present, else the
hard-coded default list (the parse-failure path also falls back). -/
def loadLocalConnections (stored : Option (List Connection)) : List Connection :=
  stored.getD defaultConnections

/-- The wire (JSON) form of a `ComponentNode`: `comments` may be absent. -/
structure WireComponent where
  id : String
  name : String
  description : String
  status : String
  inputs : List String
  outputs : List String
  owner : Option String
  lastUpdated : Int
  tags : List String
  comments : Option (List Comment)
  position : Position
  layer : Int
  workDone : Option String
  inDevelopment : Option String
  blocker : Option String
deriving DecidableEq

/-- The wire (JSON) form of `ArchitectureData`: every collection may be absent. -/
structure WireData where
  components : Option (List WireComponent)
  tags : Option (List Tag)
  milestones : Option (List MilestoneView)
deriving DecidableEq

/-- The per-component body of `parseDates`: spreads the wire component, turns
`lastUpdated` and each comment timestamp back into `Date`s (the identity on the
ms model) and defaults absent `comments` to `[]` (`c.comments?.map(...) || []`;
a present empty array is truthy in JS and is kept). -/
def parseComponent (c : WireComponent) : ComponentNode :=
  { id := c.id, name := c.name, description := c.description, status := c.status,
    inputs := c.inputs, outputs := c.outputs, owner := c.owner,
    lastUpdated := c.lastUpdated, tags := c.tags,
    comments := c.comments.getD [],
    position := c.position, layer := c.layer,
    workDone := c.workDone, inDevelopment := c.inDevelopment,
    blocker := c.blocker }

/-- Function `parseDates` of App.tsx. The `!data` guard is handled by callers in this
model (a `null` row.data is an `Option` at the call sites); the
`!data.components` guard is the `components` match below. `milestones` and
`tags` default to `[]` when absent (`data.milestones?.map(...) || []`,
`data.tags || []`). -/
def parseDates (w : WireData) : ArchitectureData :=
  match w.components with
  | none => initialArchitectureData
  | some comps =>
      { components := comps.map parseComponent,
        tags := w.tags.getD [],
        milestones := w.milestones.getD [] }

/-- JSON serialization of a component as produced by `JSON.stringify` in
`handleExport`: every field present, dates as ISO strings (identity here). -/
def serializeComponent (c : ComponentNode) : WireComponent :=
  { id := c.id, name := c.name, description := c.description, status := c.status,
    inputs := c.inputs, outputs := c.outputs, owner := c.owner,
    lastUpdated := c.lastUpdated, tags := c.tags,
    comments := some c.comments,
    position := c.position, layer := c.layer,
    workDone := c.workDone, inDevelopment := c.inDevelopment,
    blocker := c.blocker }

/-- JSON serialization of the whole document: all three collections present. -/
def serializeData (d : ArchitectureData) : WireData :=
  { components := some (d.components.map serializeComponent),
    tags := some d.tags,
    milestones := some d.milestones }

/-- The parsed shape of an exported file: `data` / `connections` keys may be
absent (or `null`) in an arbitrary imported blob. -/
structure ExportBlob where
  edata : Option WireData
  econnections : Option (List Connection)
  exportedAt : Int
deriving DecidableEq

/-- Function `handleExport`: serializes `{ data, connections, exportedAt }`. -/
def handleExport (d : ArchitectureData) (conns : List Connection) (now : Int) :
    ExportBlob :=
  { edata := some (serializeData d), econnections := some conns, exportedAt := now }

/-- Function `handleImport`: `none` models a JSON parse failure (the `catch` branch);
otherwise the `imported.data && imported.connections` truthiness check decides
between applying `parseDates(imported.data)` + `setConnections` and the
"Invalid file format" rejection. Returns the (new data, new connections,
alert message) triple; on rejection the state components are returned
unchanged. -/
def handleImport (curData : ArchitectureData) (curConns : List Connection)
    (blob : Option ExportBlob) : ArchitectureData × List Connection × String :=
  match blob with
  | none => (curData, curConns, "Failed to import file")
  | some b =>
      match b.edata, b.econnections with
      | some wd, some cs => (parseDates wd, cs, "Data imported successfully!")
      | _, _ => (curData, curConns, "Invalid file format")

/-- The per-incoming-component body of the incoming-update merge (identical in
the realtime handler and in `fetchData`): a dirty id keeps the local version
when one exists (`local || incoming`), anything else adopts the incoming
component wholesale. -/
def keepLocalIfDirty (localComps : List ComponentNode) (dirty : List String)
    (inc : ComponentNode) : ComponentNode :=
  if dirty.contains inc.id then
    match localComps.find? (fun c => c.id == inc.id) with
    | some l => l
    | none => inc
  else inc

/-- The `incomingData.components.map(incoming => ...)` map of the merge branch. -/
def mergeIncoming (localComps : List ComponentNode) (dirty : List String)
    (incoming : List ComponentNode) : List ComponentNode :=
  incoming.map (keepLocalIfDirty localComps dirty)

/-- The components adopted by both incoming-update handlers: the full-replace
branch when the dirty set is empty (`setData(incomingData)`), the row-level
merge otherwise. -/
def applyIncomingComponents (localComps : List ComponentNode) (dirty : List String)
    (incoming : List ComponentNode) : List ComponentNode :=
  if dirty.isEmpty then incoming else mergeIncoming localComps dirty incoming

/-- Function `isOwnEcho`: false when no save has been recorded, else a 100 ms tolerance
band around the Save Echo Marker. -/
def isOwnEcho (lastSave : Option Int) (incoming : Int) : Bool :=
  match lastSave with
  | none => false
  | some t => (incoming - t).natAbs < 100

/-- The slice of App state the synchronization handlers read and write:
`data`/`connections` are the React state, the rest are the refs. -/
structure SyncState where
  data : ArchitectureData
  connections : List Connection
  lastUpdatedAt : Option Int
  lastSave : Option Int
  savePending : Bool
  dirty : List String
deriving DecidableEq

/-- A fetched `architecture_data` row. `rowData = none` models an existing row
whose `data` column is `null` or an empty object (the `row && row.data &&
Object.keys(row.data).length > 0` check). A row that does not exist is not a
`Row`: the code fetches with `.single()`, which surfaces zero rows as an error,
modelled as the `none` outcome of `fetchDataModel`. -/
structure Row where
  rowData : Option WireData
  rowConnections : Option (List Connection)
  updatedAt : Int
deriving DecidableEq

/-- A seeding write performed by `fetchData` (`updated_at` omitted). -/
structure SeedWrite where
  sdata : ArchitectureData
  sconns : List Connection
deriving DecidableEq

/-- Result of one `fetchData` invocation: the new local state and the list of
remote writes it performed. -/
structure FetchOut where
  st : SyncState
  writes : List SeedWrite
deriving DecidableEq

/-- Function `fetchData` of App.tsx. `outcome = none` models a Supabase fetch
error (early return, no write) — including the nonexistent-row case, which
`.single()` surfaces as an error. The guards run in source order: save-pending
(poll only), echo filter, unchanged-`updated_at` (poll only); then the row is
applied through `parseDates` and the dirty merge, with
`row.connections || loadLocalConnections()` for the connections. An existing
row without usable `data` triggers the seeding upsert of the default document
and `loadLocalConnections()`. -/
def fetchDataModel (storedConns : Option (List Connection)) (st : SyncState)
    (outcome : Option Row) (isPolling : Bool) : FetchOut :=
  match outcome with
  | none => ⟨st, []⟩
  | some row =>
      match row.rowData with
      | none => ⟨st, [⟨initialArchitectureData, loadLocalConnections storedConns⟩]⟩
      | some wd =>
          if isPolling && st.savePending then ⟨st, []⟩
          else if isOwnEcho st.lastSave row.updatedAt then ⟨st, []⟩
          else if isPolling && decide (st.lastUpdatedAt = some row.updatedAt) then ⟨st, []⟩
          else
            let incoming := parseDates wd
            ⟨{ st with
                data := { incoming with
                  components := applyIncomingComponents st.data.components st.dirty
                    incoming.components },
                connections := row.rowConnections.getD (loadLocalConnections storedConns),
                lastUpdatedAt := some row.updatedAt }, []⟩

/-- The payload of a realtime INSERT/UPDATE notification. -/
structure RtRow where
  ndata : WireData
  nconnections : Option (List Connection)
  updatedAt : Int
deriving DecidableEq

/-- The realtime subscription handler of App.tsx for INSERT/UPDATE events:
save-pending guard, echo filter, then the same dirty merge as `fetchData`;
connections are adopted only when present (`if (newRow.connections)`). The
handler does not touch `lastUpdatedAt` (only `fetchData` does). -/
def realtimeModel (st : SyncState) (rt : RtRow) : SyncState :=
  if st.savePending then st
  else if isOwnEcho st.lastSave rt.updatedAt then st
  else
    let incoming := parseDates rt.ndata
    let st1 := { st with
      data := { incoming with
        components := applyIncomingComponents st.data.components st.dirty
          incoming.components } }
    match rt.nconnections with
    | some cs => { st1 with connections := cs }
    | none => st1

/-- The per-remote-component body of the patch-save merge: "our updated node
always wins for itself". -/
def substNode (nodeId : String) (n : ComponentNode) (rc : ComponentNode) :
    ComponentNode :=
  if rc.id == nodeId then n else rc

/-- The component-level merge of `patchSaveNode` (steps 2 of the algorithm):
map the substitution over the remote components, and append the node when its
id is absent from the remote document (`if (!exists) mergedComponents.push`). -/
def mergeSave (remote : List ComponentNode) (nodeId : String) (n : ComponentNode) :
    List ComponentNode :=
  let merged := remote.map (substNode nodeId n)
  if remote.any (fun c => c.id == nodeId) then merged else merged ++ [n]

/-- The outcome of one attempt of the `patchSaveNode` retry loop. -/
inductive SaveOutcome where
  | fetchFail
  | writeFail (remote : WireData) (rconns : Option (List Connection))
  | throwFail
  | ok (remote : WireData) (rconns : Option (List Connection))
deriving DecidableEq

/-- Whether an attempt outcome is the fully successful one. -/
def SaveOutcome.isOk : SaveOutcome → Bool
  | .ok _ _ => true
  | _ => false

/-- Observable result of a `patchSaveNode` run. -/
structure SaveRun where
  success : Bool
  attempts : Nat
  delays : List Nat
  data : ArchitectureData
  written : Option ArchitectureData
  status : String
deriving DecidableEq

/-- The `for (attempt = 0; attempt < 3; attempt++)` loop of `patchSaveNode`,
with the attempt index and the remaining iteration count explicit. A failed
attempt (fetch error, write error, or thrown exception) sleeps
`1000 * Math.pow(2, attempt)` ms when `attempt < 2` and continues; a successful
attempt writes the node-granularity merge back, reconciles the local components
to the persisted node, and breaks. Local state is never touched on failure. -/
def patchLoop (outcome : Nat → SaveOutcome) (nodeId : String) (n : ComponentNode)
    (localD : ArchitectureData) : Nat → Nat → SaveRun
  | _, 0 => ⟨false, 0, [], localD, none, ""⟩
  | attempt, fuel + 1 =>
      match outcome attempt with
      | .ok remote _rconns =>
          let remoteParsed := parseDates remote
          let merged := { remoteParsed with
            components := mergeSave remoteParsed.components nodeId n }
          { success := true, attempts := 1, delays := [],
            data := { localD with
              components := localD.components.map (fun c =>
                if c.id == nodeId then n else c) },
            written := some merged,
            status := "" }
      | _ =>
          let rest := patchLoop outcome nodeId n localD (attempt + 1) fuel
          { rest with
              attempts := rest.attempts + 1,
              delays := (if attempt < 2 then [1000 * 2 ^ attempt] else [])
                          ++ rest.delays }

/-- Function `patchSaveNode`: up to 3 attempts starting at index 0, then
`setSaveStatus(success ? "synced" : "offline")`. -/
def patchSaveModel (outcome : Nat → SaveOutcome) (nodeId : String)
    (n : ComponentNode) (localD : ArchitectureData) : SaveRun :=
  let r := patchLoop outcome nodeId n localD 0 3
  { r with status := if r.success then "synced" else "offline" }

/-- The write performed by the client-side `handleDeleteNode`: the remote
components with the node filtered out, and `row.connections` passed through
unchanged (`connections: row.connections`). -/
def handleDeleteNodeWrite (remote : ArchitectureData)
    (rowConnections : List Connection) (nodeId : String) :
    ArchitectureData × List Connection :=
  ({ remote with components := remote.components.filter (fun c => c.id != nodeId) },
   rowConnections)

/-- JS property access on a stored connection object. Connections are written
by the app with exactly the keys `from` and `to`, so any other key reads as
`undefined` (`none`). -/
def connGet (c : Connection) : String → Option String
  | "from" => some c.fromId
  | "to" => some c.toId
  | _ => none

/-- Steps 7-8 of the `delete-node` edge function: filter the node out of
`components`, and filter connections with
`conn.source !== nodeId && conn.target !== nodeId` — a strict inequality
between the (absent) `source`/`target` properties and the node id. -/
def deleteNodeEdgeFnWrite (currentData : ArchitectureData)
    (rowConnections : List Connection) (nodeId : String) :
    ArchitectureData × List Connection :=
  ({ currentData with
      components := currentData.components.filter (fun c => c.id != nodeId) },
   rowConnections.filter (fun conn =>
     (connGet conn ("source") != some nodeId)
       && (connGet conn ("target") != some nodeId)))

/-- A sample node used by concrete witnesses and counterexamples. -/
def sampleNode (i : String) : ComponentNode :=
  { id := i, name := i, description := "", status := "built",
    inputs := [], outputs := [], owner := none, lastUpdated := 0,
    tags := [], comments := [], position := ⟨0, 0⟩, layer := 1,
    workDone := none, inDevelopment := none, blocker := none }

/-- A sample wire-form node used by concrete counterexamples. -/
def sampleWireNode (i : String) : WireComponent :=
  serializeComponent (sampleNode i)

/-! List helper lemmas -/

theorem list_find?_append_none {α : Type} (l₁ l₂ : List α) (p : α → Bool)
    (h : l₁.find? p = none) : (l₁ ++ l₂).find? p = l₂.find? p := by
  induction l₁ with
  | nil => rfl
  | cons a l ih =>
      rcases hp : p a with _ | _
      · rw [List.cons_append, List.find?_cons_of_neg _ (by simp [hp])]
        exact ih (by rwa [List.find?_cons_of_neg _ (by simp [hp])] at h)
      · rw [List.find?_cons_of_pos _ hp] at h
        exact absurd h (by simp)

theorem list_find?_append_some {α : Type} (l₁ l₂ : List α) (p : α → Bool) (a : α)
    (h : l₁.find? p = some a) : (l₁ ++ l₂).find? p = some a := by
  induction l₁ with
  | nil => simp [List.find?] at h
  | cons b l ih =>
      rcases hp : p b with _ | _
      · rw [List.find?_cons_of_neg _ (by simp [hp])] at h
        rw [List.cons_append, List.find?_cons_of_neg _ (by simp [hp])]
        exact ih h
      · rw [List.find?_cons_of_pos _ hp] at h
        rw [List.cons_append, List.find?_cons_of_pos _ hp]
        exact h

/-- Lemma: `find?` over a map whose function preserves the searched key, relative to a
predicate reading only the key. -/
theorem find?_map_idkey (l : List ComponentNode) (f : ComponentNode → ComponentNode)
    (y : String) (hf : ∀ c ∈ l, (f c).id = c.id) :
    (l.map f).find? (fun c => c.id == y) = (l.find? (fun c => c.id == y)).map f := by
  induction l with
  | nil => rfl
  | cons c l ih =>
      have hfc : (f c).id = c.id := hf c (by simp)
      rcases hp : (c.id == y) with _ | _
      · rw [List.map_cons, List.find?_cons_of_neg _ (by simp [hfc, hp]),
          List.find?_cons_of_neg _ (by simp [hp])]
        exact ih (fun d hd => hf d (by simp [hd]))
      · have h2 : List.find? (fun c => c.id == y) (List.map f (c :: l))
            = some (f c) := by
          rw [List.map_cons]
          exact List.find?_cons_of_pos _ (by simp [hfc, hp])
        have h3 : List.find? (fun c => c.id == y) (c :: l) = some c :=
          List.find?_cons_of_pos _ hp
        rw [h2, h3]
        rfl

/-- Lemma: `find?` over a map that fixes every element satisfying the predicate and
preserves predicate-failure. -/
theorem find?_map_congr {α : Type} (l : List α) (f : α → α) (p : α → Bool)
    (h1 : ∀ a ∈ l, p a = true → f a = a)
    (h2 : ∀ a ∈ l, p a = false → p (f a) = false) :
    (l.map f).find? p = l.find? p := by
  induction l with
  | nil => rfl
  | cons a l ih =>
      rcases hp : p a with _ | _
      · rw [List.map_cons, List.find?_cons_of_neg _ (by simp [h2 a (by simp) hp]),
          List.find?_cons_of_neg _ (by simp [hp])]
        exact ih (fun b hb => h1 b (by simp [hb])) (fun b hb => h2 b (by simp [hb]))
      · rw [List.map_cons, h1 a (by simp) hp, List.find?_cons_of_pos _ hp,
          List.find?_cons_of_pos _ hp]

/-! Lemmas about the patch-save merge -/

theorem substNode_id (i : String) (n rc : ComponentNode) (hn : n.id = i) :
    (substNode i n rc).id = rc.id := by
  unfold substNode
  rcases h : (rc.id == i) with _ | _
  · simp [h]
  · simp [h, hn, (beq_iff_eq.mp h).symm]

theorem map_substNode_of_absent (R : List ComponentNode) (i : String)
    (n : ComponentNode) (h : ∀ c ∈ R, (c.id == i) = false) :
    R.map (substNode i n) = R := by
  have : ∀ c ∈ R, substNode i n c = c := by
    intro c hc
    unfold substNode
    simp [h c hc]
  rw [List.map_congr_left this]
  simp

/-- After a patch save of node `n` under id `i`, the first component with id
`i` in the written document is exactly `n`. -/
theorem mergeSave_find_self (R : List ComponentNode) (i : String)
    (n : ComponentNode) (hn : n.id = i) :
    (mergeSave R i n).find? (fun c => c.id == i) = some n := by
  unfold mergeSave
  rcases hany : R.any (fun c => c.id == i) with _ | _
  · have hnone : R.find? (fun c => c.id == i) = none :=
      List.find?_eq_none.mpr (by
        intro x hx
        simp [List.any_eq_false.mp hany x hx])
    simp only [hany, Bool.false_eq_true, if_false]
    rw [map_substNode_of_absent R i n (fun c hc => by
      simpa using List.any_eq_false.mp hany c hc)]
    rw [list_find?_append_none _ _ _ hnone]
    exact List.find?_cons_of_pos _ (by simp [hn])
  · simp only [hany, if_true]
    rw [find?_map_idkey R _ i (fun c _ => substNode_id i n c hn)]
    have hsome : (R.find? (fun c => c.id == i)).isSome := by
      rw [List.find?_isSome]
      exact List.any_eq_true.mp hany
    rcases hfind : R.find? (fun c => c.id == i) with _ | c
    · rw [hfind] at hsome; simp at hsome
    · have hc : (c.id == i) = true :=
        List.find?_some (p := fun d : ComponentNode => d.id == i) hfind
      rw [hfind]
      simp [substNode, hc]

/-- A patch save of node `n` under id `i` does not disturb the first component
with any other id `j`. -/
theorem mergeSave_find_other (R : List ComponentNode) (i j : String)
    (n : ComponentNode) (hn : n.id = i) (hij : i ≠ j) :
    (mergeSave R i n).find? (fun c => c.id == j) = R.find? (fun c => c.id == j) := by
  have hmap : (R.map (substNode i n)).find? (fun c => c.id == j)
      = R.find? (fun c => c.id == j) := by
    apply find?_map_congr
    · intro c _ hc
      unfold substNode
      have : (c.id == i) = false := by
        have : c.id = j := beq_iff_eq.mp hc
        simp [this]
        exact fun h => hij h.symm
      simp [this]
    · intro c _ hc
      unfold substNode
      rcases h : (c.id == i) with _ | _
      · simp [h, hc]
      · simp [h, hn]
        exact hij
  unfold mergeSave
  rcases hany : R.any (fun c => c.id == i) with _ | _
  · simp only [hany, Bool.false_eq_true, if_false]
    rcases hfind : R.find? (fun c => c.id == j) with _ | a
    · rw [list_find?_append_none _ _ _ (by rw [hmap, hfind])]
      rw [List.find?_cons_of_neg _ (by simp [hn]; exact hij), List.find?_nil, hfind]
    · rw [hfind]
      exact list_find?_append_some _ _ _ a (by rw [hmap, hfind])
  · simpa only [hany, if_true] using hmap

/-! Claim C1 -/

/-- The conclusion of claim C1, parameterized by the remote components and the
two saved nodes: the written components are exactly the remote ones with the
saved id replaced (appended when absent, all others positionally unchanged),
and two sequential saves to distinct ids each keep the other's node. -/
def patchSaveMergeSpec (R : List ComponentNode) (i₁ i₂ : String)
    (n₁ n₂ : ComponentNode) : Prop :=
  (∀ j (hj : j < R.length),
      (mergeSave R i₁ n₁)[j]? = some (if R[j].id = i₁ then n₁ else R[j]))
  ∧ ((∀ c ∈ R, c.id ≠ i₁) → mergeSave R i₁ n₁ = R ++ [n₁])
  ∧ ((R.any fun c => c.id == i₁) = true → (mergeSave R i₁ n₁).length = R.length)
  ∧ (mergeSave (mergeSave R i₁ n₁) i₂ n₂).find? (fun c => c.id == i₁) = some n₁
  ∧ (mergeSave (mergeSave R i₁ n₁) i₂ n₂).find? (fun c => c.id == i₂) = some n₂
  ∧ (∀ (w : WireData) (rconns : Option (List Connection)) (L : ArchitectureData),
      (patchSaveModel (fun _ => SaveOutcome.ok w rconns) i₁ n₁ L).written
        = some { parseDates w with
            components := mergeSave (parseDates w).components i₁ n₁ })

/-- C1: `patchSaveNode` writes back the remote document with exactly the saved
node's id substituted (appended at the end when the id is absent, every other
remote component unchanged in place); hence two saves by different clients to
two distinct node ids, applied in either order, both survive in the final
remote document — the universal quantification over `(i₁, n₁)` / `(i₂, n₂)`
covers both orders. -/
theorem patchSave_merge_non_interference
    (R : List ComponentNode) (i₁ i₂ : String) (n₁ n₂ : ComponentNode)
    (h1 : n₁.id = i₁) (h2 : n₂.id = i₂) (hne : i₁ ≠ i₂) :
    patchSaveMergeSpec R i₁ i₂ n₁ n₂ := by
  refine ⟨?_, ?_, ?_, ?_, ?_, ?_⟩
  · intro j hj
    unfold mergeSave
    rcases hany : R.any (fun c => c.id == i₁) with _ | _
    · have habs : ∀ c ∈ R, (c.id == i₁) = false := fun c hc => by
        simpa using List.any_eq_false.mp hany c hc
      have hid : (R[j].id == i₁) = false := habs R[j] (List.getElem_mem hj)
      simp only [hany, Bool.false_eq_true, if_false]
      rw [List.getElem?_append, if_pos (by simpa using hj), List.getElem?_map,
        List.getElem?_eq_getElem hj]
      simp only [Option.map_some']
      rw [substNode, if_neg (by simp [hid])]
      rw [if_neg (by simpa using hid)]
    · simp only [hany, if_true]
      rw [List.getElem?_map, List.getElem?_eq_getElem hj]
      simp only [Option.map_some']
      unfold substNode
      by_cases hid : R[j].id = i₁
      · rw [if_pos (by simp [hid]), if_pos hid]
      · rw [if_neg (by simp [hid]), if_neg hid]
  · intro h
    have hany : R.any (fun c => c.id == i₁) = false :=
      List.any_eq_false.mpr (fun x hx => by simp [h x hx])
    unfold mergeSave
    simp only [hany, Bool.false_eq_true, if_false]
    rw [map_substNode_of_absent R i₁ n₁ (fun c hc => by simp [h c hc])]
  · intro hany
    simp [mergeSave, hany]
  · rw [mergeSave_find_other (mergeSave R i₁ n₁) i₂ i₁ n₂ h2 (Ne.symm hne)]
    exact mergeSave_find_self R i₁ n₁ h1
  · exact mergeSave_find_self (mergeSave R i₁ n₁) i₂ n₂ h2
  · intro w rconns L
    rfl

/-- Remote document used by the C1 witness. -/
def wRemote : List ComponentNode := [sampleNode ("a"), sampleNode ("b")]

/-- Client 1's edited node, id `a`. -/
def wNodeA : ComponentNode := { sampleNode ("a") with name := "a-edited" }

/-- Client 2's edited node, id `b`. -/
def wNodeB : ComponentNode := { sampleNode ("b") with name := "b-edited" }

/-- Witness instantiating C1 at a concrete two-node remote document. -/
theorem patchSave_merge_non_interference_witness :
    wNodeA.id = "a" ∧ wNodeB.id = "b" ∧ ("a" : String) ≠ "b"
      ∧ patchSaveMergeSpec wRemote ("a") ("b") wNodeA wNodeB :=
  ⟨rfl, rfl, by decide,
   patchSave_merge_non_interference wRemote ("a") ("b") wNodeA wNodeB rfl rfl (by decide)⟩

/-! Claims C2 and C7: the incoming-update merge -/

theorem keepLocalIfDirty_id (L : List ComponentNode) (D : List String)
    (inc : ComponentNode) : (keepLocalIfDirty L D inc).id = inc.id := by
  unfold keepLocalIfDirty
  rcases hd : D.contains inc.id with _ | _
  · simp [hd]
  · simp only [hd, if_true]
    rcases hf : L.find? (fun c => c.id == inc.id) with _ | l
    · rw [hf]
    · rw [hf]
      exact beq_iff_eq.mp
        (List.find?_some (p := fun d : ComponentNode => d.id == inc.id) hf)

/-- The conclusion of the amended claim C2: when the incoming document does
contain a component with the dirty id `x` and the local state holds one, the
merged components keep the local version at id `x`; every incoming component
whose id is not dirty is adopted wholesale at its position. -/
def dirtyMergeSpec (L : List ComponentNode) (D : List String)
    (I : List ComponentNode) (x : String) (lx : ComponentNode) : Prop :=
  (applyIncomingComponents L D I).find? (fun c => c.id == x) = some lx
  ∧ ∀ j (hj : j < I.length), I[j].id ∉ D →
      (applyIncomingComponents L D I)[j]? = some I[j]

/-- C2 (amended): the identical merge of the realtime handler and the polling
fetch protects a dirty node that is present in the incoming document — the
merged state keeps the local in-memory version of it — and adopts the incoming
version of every component whose id is not in the dirty set. (As stated, the
claim also covered incoming documents *not* containing the dirty id; the
counterexample below shows the local node is dropped in that case.) -/
theorem dirty_node_protection (L I : List ComponentNode) (D : List String)
    (x : String) (lx ix : ComponentNode)
    (hx : x ∈ D)
    (hlx : L.find? (fun c => c.id == x) = some lx)
    (hix : I.find? (fun c => c.id == x) = some ix) :
    dirtyMergeSpec L D I x lx := by
  have hD : D.isEmpty = false := by
    rcases D with _ | ⟨d, D⟩
    · simp at hx
    · rfl
  constructor
  · unfold applyIncomingComponents
    simp only [hD, Bool.false_eq_true, if_false]
    unfold mergeIncoming
    rw [find?_map_idkey I _ x (fun c _ => keepLocalIfDirty_id L D c), hix]
    simp only [Option.map_some']
    have hixid : ix.id = x :=
      beq_iff_eq.mp (List.find?_some (p := fun d : ComponentNode => d.id == x) hix)
    unfold keepLocalIfDirty
    rw [if_pos (show D.contains ix.id = true from by
          rw [hixid]; exact List.elem_iff.mpr hx),
      hixid, hlx]
  · intro j hj hnd
    unfold applyIncomingComponents
    rcases hDe : D.isEmpty with _ | _
    · simp only [hDe, Bool.false_eq_true, if_false]
      unfold mergeIncoming
      rw [List.getElem?_map, List.getElem?_eq_getElem hj]
      simp only [Option.map_some']
      unfold keepLocalIfDirty
      rw [if_neg (show ¬ D.contains I[j].id = true from
            fun hcc => hnd (List.elem_iff.mp hcc))]
    · simp only [hDe, if_true]
      exact List.getElem?_eq_getElem hj

/-- Local node being edited, used in the C2 witness. -/
def wLocalX : ComponentNode := { sampleNode ("x") with name := "x-local" }

/-- Incoming remote value for the same node, used in the C2 witness. -/
def wIncX : ComponentNode := { sampleNode ("x") with name := "x-remote" }

/-- Witness instantiating the amended C2 at one dirty node. -/
theorem dirty_node_protection_witness :
    ("x" : String) ∈ (["x"] : List String)
    ∧ [wLocalX].find? (fun c => c.id == "x") = some wLocalX
    ∧ [wIncX, sampleNode ("z")].find? (fun c => c.id == "x") = some wIncX
    ∧ dirtyMergeSpec [wLocalX] ["x"] [wIncX, sampleNode ("z")] "x" wLocalX :=
  ⟨by decide, by decide, by decide,
   dirty_node_protection [wLocalX] [wIncX, sampleNode ("z")] ["x"] "x" wLocalX wIncX
     (by decide) (by decide) (by decide)⟩

/-- Counterexample to C2 as stated: with node id `y` dirty and present locally,
an incoming document that lacks id `y` makes the merge drop the local
component — the merged state's component at id `y` differs from the local one
(it is gone), so the merge does not leave it unchanged for *every* incoming
document. -/
theorem dirty_node_protection_counterexample :
    ("y" : String) ∈ (["y"] : List String)
    ∧ (applyIncomingComponents [sampleNode ("y")] ["y"] []).find?
        (fun c => c.id == "y")
      ≠ [sampleNode ("y")].find? (fun c => c.id == "y") := by
  decide

/-- C7 (amended): a node absent from the incoming document is dropped by the
incoming-update merge regardless of whether its id is dirty — the merged
components contain no component with an id that no incoming component carries.
Dirty-node protection applies only to ids present in the incoming document. -/
theorem dirty_absent_dropped (L I : List ComponentNode) (D : List String)
    (z : String) (hz : ∀ inc ∈ I, inc.id ≠ z) :
    ∀ c ∈ applyIncomingComponents L D I, c.id ≠ z := by
  intro c hc
  unfold applyIncomingComponents at hc
  rcases hDe : D.isEmpty with _ | _
  · rw [hDe] at hc
    simp only [Bool.false_eq_true, if_false] at hc
    unfold mergeIncoming at hc
    obtain ⟨inc, hinc, rfl⟩ := List.mem_map.mp hc
    rw [keepLocalIfDirty_id]
    exact hz inc hinc
  · rw [hDe] at hc
    simp only [if_true] at hc
    exact hz c hc

/-- Witness instantiating the amended C7: a dirty node (`w`) absent from the
incoming document is absent from the merged components. -/
theorem dirty_absent_dropped_witness :
    (∀ inc ∈ [sampleNode ("u")], inc.id ≠ "w")
    ∧ ∀ c ∈ applyIncomingComponents [sampleNode ("w")] ["w"] [sampleNode ("u")],
        c.id ≠ "w" :=
  ⟨by decide,
   dirty_absent_dropped [sampleNode ("w")] [sampleNode ("u")] ["w"] "w" (by decide)⟩

/-- Counterexample to C7 as stated: node id `x` is dirty, present locally, and
absent from the incoming document, yet the merge drops it — the merged
component list is empty rather than keeping the local version. -/
theorem dirty_absent_dropped_counterexample :
    ("x" : String) ∈ (["x"] : List String)
    ∧ (∀ inc ∈ ([] : List ComponentNode), inc.id ≠ "x")
    ∧ applyIncomingComponents [sampleNode ("x")] ["x"] [] = []
    ∧ ¬ ∃ c ∈ applyIncomingComponents [sampleNode ("x")] ["x"] [], c.id = "x" := by
  refine ⟨by decide, by decide, rfl, ?_⟩
  rintro ⟨c, hc, -⟩
  simp [applyIncomingComponents, mergeIncoming] at hc

/-! Claim C4: echo suppression -/

/-- C4: when the incoming `updatedAt` is within the 100 ms tolerance of the
Save Echo Marker, both the polling/startup fetch path and the realtime handler
discard the result — the entire local synchronization state (document,
connections, and the bookkeeping refs) is left unchanged. -/
theorem echo_suppression (sc : Option (List Connection)) (st : SyncState)
    (row : Row) (rt : RtRow) (isPolling : Bool)
    (hf : isOwnEcho st.lastSave row.updatedAt = true)
    (hr : isOwnEcho st.lastSave rt.updatedAt = true) :
    (fetchDataModel sc st (some row) isPolling).st = st
    ∧ realtimeModel st rt = st := by
  constructor
  · unfold fetchDataModel
    rcases row with ⟨rd, rc, ts⟩
    rcases rd with _ | wd
    · rfl
    · simp only at hf
      by_cases hp : (isPolling && st.savePending) = true
      · simp [hp]
      · simp [hp, hf]
  · unfold realtimeModel
    by_cases hp : st.savePending = true
    · simp [hp]
    · simp [hp, hr]

/-- State used by the C4 witness: the Save Echo Marker records ms 1000. -/
def c4State : SyncState :=
  { data := initialArchitectureData, connections := [], lastUpdatedAt := none,
    lastSave := some 1000, savePending := false, dirty := [] }

/-- An empty-but-present wire document used by concrete handler inputs. -/
def emptyWire : WireData := { components := some [], tags := some [], milestones := some [] }

/-- Witness instantiating C4: a poll result at ms 1050 and a realtime payload
at ms 950, both within 100 ms of the marker, change nothing. -/
theorem echo_suppression_witness :
    isOwnEcho c4State.lastSave (1050 : Int) = true
    ∧ isOwnEcho c4State.lastSave (950 : Int) = true
    ∧ ((fetchDataModel none c4State (some ⟨some emptyWire, none, 1050⟩) true).st = c4State
        ∧ realtimeModel c4State ⟨emptyWire, none, 950⟩ = c4State) :=
  ⟨by decide, by decide,
   echo_suppression none c4State ⟨some emptyWire, none, 1050⟩ ⟨emptyWire, none, 950⟩
     true (by decide) (by decide)⟩

/-! Claim C8: polling fallback guards -/

/-- C8 (amended): the polling fetch never applies a result while a save is in
flight, and never applies a result whose `updatedAt` is *identical* to the last
applied `updatedAt` — in both cases the local synchronization state is
untouched. (As stated, the claim also ruled out applying a result with a
strictly *older* `updatedAt`; the counterexample below shows the code compares
with `===` only and does apply an older, different timestamp.) -/
theorem poll_guard (sc : Option (List Connection)) (st : SyncState) :
    (∀ outcome : Option Row, st.savePending = true →
        (fetchDataModel sc st outcome true).st = st)
    ∧ (∀ row : Row, st.lastUpdatedAt = some row.updatedAt →
        (fetchDataModel sc st (some row) true).st = st) := by
  constructor
  · intro outcome hsp
    unfold fetchDataModel
    rcases outcome with _ | ⟨rd, rc, ts⟩
    · rfl
    · rcases rd with _ | wd
      · rfl
      · simp [hsp]
  · intro row hlu
    unfold fetchDataModel
    rcases row with ⟨rd, rc, ts⟩
    rcases rd with _ | wd
    · rfl
    · simp only at hlu
      by_cases hp : ((true : Bool) && st.savePending) = true
      · simp [hp]
      · by_cases he : isOwnEcho st.lastSave ts = true
        · simp [hp, he]
        · simp [hp, he, hlu]

/-- State used by the C8 witness and counterexample: last applied ms 5000. -/
def c8State : SyncState :=
  { data := initialArchitectureData, connections := [], lastUpdatedAt := some 5000,
    lastSave := none, savePending := false, dirty := [] }

/-- Witness instantiating the amended C8: a pending save blocks application,
and a result carrying the identical `updatedAt` 5000 is skipped. -/
theorem poll_guard_witness :
    ({ c8State with savePending := true }.savePending = true
      ∧ (fetchDataModel none { c8State with savePending := true }
          (some ⟨some emptyWire, none, 6000⟩) true).st
        = { c8State with savePending := true })
    ∧ (c8State.lastUpdatedAt = some (5000 : Int)
      ∧ (fetchDataModel none c8State (some ⟨some emptyWire, none, 5000⟩) true).st
        = c8State) :=
  ⟨⟨rfl, ((poll_guard none { c8State with savePending := true }).1
      (some ⟨some emptyWire, none, 6000⟩) rfl)⟩,
   ⟨rfl, ((poll_guard none c8State).2 ⟨some emptyWire, none, 5000⟩ rfl)⟩⟩

/-- A one-node wire document used by the C8 counterexample. -/
def c8Wire : WireData :=
  { components := some [sampleWireNode ("n1")], tags := some [], milestones := some [] }

/-- Counterexample to C8 as stated: a poll result whose `updatedAt` (4000) is
strictly older than the last applied `updatedAt` (5000) but not identical to it
is applied — the local document changes. The code only rejects an identical
timestamp (`===`). -/
theorem poll_guard_counterexample :
    (4000 : Int) < 5000
    ∧ c8State.lastUpdatedAt = some 5000
    ∧ (fetchDataModel none c8State (some ⟨some c8Wire, none, 4000⟩) true).st.data
      ≠ c8State.data := by
  decide

/-! Claim C6: first-run seeding -/

/-- C6 fails on the code: the startup fetch uses
`.select("*").eq("id", "main").single()`, and `.single()` surfaces zero rows as
an error, so a genuinely nonexistent row — the claim's first-run condition —
takes the `if (error)` early return and the startup fetch performs no write at
all: the default document is never seeded on that condition. The seeding branch
the code carries (commented `First time - save initial data to Supabase`) is
reachable only on the different condition of an *existing* row whose `data`
column is null/empty, where it does upsert the default document and
`loadLocalConnections()` (the default list when localStorage is empty). The
model is a total function, so neither condition crashes. -/
theorem first_run_seeding_not_performed (sc : Option (List Connection))
    (st : SyncState) :
    (fetchDataModel sc st none false).writes = []
    ∧ (fetchDataModel sc st none false).st = st
    ∧ (∀ (rc : Option (List Connection)) (ts : Int),
        (fetchDataModel sc st (some ⟨none, rc, ts⟩) false).writes
          = [⟨initialArchitectureData, loadLocalConnections sc⟩])
    ∧ loadLocalConnections none = defaultConnections :=
  ⟨rfl, rfl, fun _ _ => rfl, rfl⟩

/-! Claim C5: retry then offline -/

theorem patchLoop_fail_step (outcome : Nat → SaveOutcome) (i : String)
    (n : ComponentNode) (L : ArchitectureData) (k fuel : Nat)
    (hk : (outcome k).isOk = false) :
    patchLoop outcome i n L k (fuel + 1)
      = { patchLoop outcome i n L (k + 1) fuel with
          attempts := (patchLoop outcome i n L (k + 1) fuel).attempts + 1,
          delays := (if k < 2 then [1000 * 2 ^ k] else [])
                      ++ (patchLoop outcome i n L (k + 1) fuel).delays } := by
  rcases ho : outcome k with _ | ⟨w, c⟩ | _ | ⟨w, c⟩
  · rw [patchLoop, ho]
  · rw [patchLoop, ho]
  · rw [patchLoop, ho]
  · rw [ho] at hk
    simp [SaveOutcome.isOk] at hk

/-- The conclusion of claim C5 for a run whose transport attempts all fail:
exactly 3 attempts, strictly increasing exponential-backoff delays between
them (1000 ms then 2000 ms), an `offline` status afterwards, nothing written,
and the optimistic local document untouched. -/
def retryOfflineSpec (outcome : Nat → SaveOutcome) (i : String)
    (n : ComponentNode) (L : ArchitectureData) : Prop :=
  (patchSaveModel outcome i n L).attempts = 3
  ∧ (patchSaveModel outcome i n L).delays = [1000, 2000]
  ∧ List.Chain' (· < ·) (patchSaveModel outcome i n L).delays
  ∧ (patchSaveModel outcome i n L).status = "offline"
  ∧ (patchSaveModel outcome i n L).success = false
  ∧ (patchSaveModel outcome i n L).written = none
  ∧ (patchSaveModel outcome i n L).data = L

/-- C5: when every transport attempt fails, `patchSaveNode` performs exactly 3
attempts with increasing exponential-backoff delays between them, then surfaces
the offline status, writing nothing and leaving the optimistic local document
unaltered. -/
theorem patch_save_retry_then_offline (outcome : Nat → SaveOutcome) (i : String)
    (n : ComponentNode) (L : ArchitectureData)
    (h : ∀ k, k < 3 → (outcome k).isOk = false) :
    retryOfflineSpec outcome i n L := by
  have e0 : patchLoop outcome i n L 0 3
      = { patchLoop outcome i n L 1 2 with
          attempts := (patchLoop outcome i n L 1 2).attempts + 1,
          delays := (if 0 < 2 then [1000 * 2 ^ 0] else [])
                      ++ (patchLoop outcome i n L 1 2).delays } :=
    patchLoop_fail_step outcome i n L 0 2 (h 0 (by decide))
  have e1 : patchLoop outcome i n L 1 2
      = { patchLoop outcome i n L 2 1 with
          attempts := (patchLoop outcome i n L 2 1).attempts + 1,
          delays := (if 1 < 2 then [1000 * 2 ^ 1] else [])
                      ++ (patchLoop outcome i n L 2 1).delays } :=
    patchLoop_fail_step outcome i n L 1 1 (h 1 (by decide))
  have e2 : patchLoop outcome i n L 2 1
      = { patchLoop outcome i n L 3 0 with
          attempts := (patchLoop outcome i n L 3 0).attempts + 1,
          delays := (if 2 < 2 then [1000 * 2 ^ 2] else [])
                      ++ (patchLoop outcome i n L 3 0).delays } :=
    patchLoop_fail_step outcome i n L 2 0 (h 2 (by decide))
  have ebase : patchLoop outcome i n L 3 0 = ⟨false, 0, [], L, none, ""⟩ := rfl
  have erun : patchLoop outcome i n L 0 3
      = { success := false, attempts := 3, delays := [1000, 2000],
          data := L, written := none, status := "" } := by
    rw [e0, e1, e2, ebase]
    norm_num
  unfold retryOfflineSpec patchSaveModel
  rw [erun]
  refine ⟨rfl, rfl, ?_, rfl, rfl, rfl, rfl⟩
  simp

/-- Witness instantiating C5: every attempt is a transport fetch failure. -/
theorem patch_save_retry_then_offline_witness :
    (∀ k, k < 3 → ((fun _ => SaveOutcome.fetchFail) k).isOk = false)
    ∧ retryOfflineSpec (fun _ => SaveOutcome.fetchFail) "a" (sampleNode ("a"))
        initialArchitectureData :=
  ⟨fun _ _ => rfl,
   patch_save_retry_then_offline (fun _ => SaveOutcome.fetchFail) "a"
     (sampleNode ("a")) initialArchitectureData (fun _ _ => rfl)⟩

/-! Claim C3: cascade delete -/

/-- The two-node remote document of the C3 failing input. -/
def c3Doc : ArchitectureData :=
  { components := [sampleNode ("a"), sampleNode ("b")], tags := [], milestones := [] }

/-- The stored edge `a → b` of the C3 failing input. -/
def c3Edge : Connection := ⟨"a", "b"⟩

/-- C3 fails on the code: deleting node `a` removes it from `components`, but
neither write path removes the edge `a → b` in the same write. The client-side
`handleDeleteNode` passes `row.connections` through unchanged, and the
`delete-node` edge function filters on the `source`/`target` properties, which
do not exist on the stored `{from, to}` connection objects, so its filter keeps
every connection. -/
theorem cascade_delete_not_performed :
    (handleDeleteNodeWrite c3Doc [c3Edge] ("a")).2 = [c3Edge]
    ∧ (deleteNodeEdgeFnWrite c3Doc [c3Edge] ("a")).2 = [c3Edge]
    ∧ c3Edge.fromId = "a"
    ∧ (handleDeleteNodeWrite c3Doc [c3Edge] ("a")).1.components.all
        (fun c => c.id != "a") = true
    ∧ (deleteNodeEdgeFnWrite c3Doc [c3Edge] ("a")).1.components.all
        (fun c => c.id != "a") = true := by
  decide

/-! Claim C9: export/import round trip -/

/-- C9: importing the exact file produced by `handleExport` reproduces the
in-memory document and connections state that was exported (timestamps pass
through their ISO serialization losslessly), regardless of the state present
at import time. -/
theorem export_import_round_trip (d0 d : ArchitectureData)
    (c0 conns : List Connection) (now : Int) :
    handleImport d0 c0 (some (handleExport d conns now))
      = (d, conns, "Data imported successfully!") := by
  have hl : (d.components.map serializeComponent).map parseComponent
      = d.components := by
    rw [List.map_map]
    have hcomp : (parseComponent ∘ serializeComponent) = id := funext fun c => rfl
    rw [hcomp, List.map_id]
  simp [handleImport, handleExport, serializeData, parseDates, hl]

/-! Claim C10: malformed import rejection -/

/-- C10: an import blob that fails to parse, or whose parsed form misses the
`data` or the `connections` top-level key, is rejected with an explicit alert
message and leaves the in-memory document and connections state unchanged. -/
theorem import_rejects_malformed (d : ArchitectureData) (c : List Connection)
    (b : ExportBlob) (h : b.edata = none ∨ b.econnections = none) :
    handleImport d c (some b) = (d, c, "Invalid file format")
    ∧ handleImport d c none = (d, c, "Failed to import file") := by
  refine ⟨?_, rfl⟩
  rcases b with ⟨ed, ec, t⟩
  rcases h with h | h
  · simp only at h
    subst h
    rcases ec with _ | cs <;> rfl
  · simp only at h
    subst h
    rcases ed with _ | wd <;> rfl

/-- A blob missing the `data` key, used by the C10 witness. -/
def badBlob : ExportBlob := { edata := none, econnections := some [], exportedAt := 0 }

/-- Witness instantiating C10 on a blob missing the `data` key. -/
theorem import_rejects_malformed_witness :
    (badBlob.edata = none ∨ badBlob.econnections = none)
    ∧ (handleImport initialArchitectureData [] (some badBlob)
        = (initialArchitectureData, [], "Invalid file format")
      ∧ handleImport initialArchitectureData [] none
        = (initialArchitectureData, [], "Failed to import file")) :=
  ⟨Or.inl rfl,
   import_rejects_malformed initialArchitectureData [] badBlob (Or.inl rfl)⟩
